import Mathlib

/-!
Verification of the halo-aware indexing and predication subsystem of
torch/csrc/jit/codegen/cuda/lower_shift.cpp.

The development is a shallow embedding: symbolic kernel-IR integers
(kir::Int) become an expression tree KInt, symbolic booleans (kir::Bool)
become KBool, and the functions of lower_shift.cpp are translated to Lean
functions over those trees.  Object identity of kir nodes is modelled as
structural equality of the trees (every distinct symbolic leaf gets its own
variable index, and the builders create fresh composite nodes exactly where
the source does).  Fatal TORCH_INTERNAL_ASSERT / TORCH_CHECK failures are
modelled by returning none.
-/

/-- Symbolic kernel-IR integer (kir::Int): either a compile-time constant,
a symbolic leaf (named value), or a composite arithmetic node built by one
of the IR builders. -/
inductive KInt where
  | const : Int → KInt
  | var : Nat → KInt
  | add : KInt → KInt → KInt
  | sub : KInt → KInt → KInt
  | mul : KInt → KInt → KInt
  | imax : KInt → KInt → KInt
deriving DecidableEq, Repr

/-- Compile-time constant value of a node (kir::Int::value): only constant
leaves carry a value. -/
def KInt.constValue : KInt → Option Int
  | KInt.const v => some v
  | _ => none

/-- kir::Val::isConst: the node is a compile-time constant. -/
def KInt.isConst (x : KInt) : Bool := x.constValue.isSome

/-- kir::Val::isZeroInt: the node is the constant zero. -/
def KInt.isZeroInt (x : KInt) : Bool := x.constValue = some 0

/-- kir::Val::isOneInt: the node is the constant one. -/
def KInt.isOneInt (x : KInt) : Bool := x.constValue = some 1

/-- Evaluation of a symbolic integer under an assignment of the symbolic
leaves. -/
def evalK (env : Nat → Int) : KInt → Int
  | KInt.const v => v
  | KInt.var n => env n
  | KInt.add a b => evalK env a + evalK env b
  | KInt.sub a b => evalK env a - evalK env b
  | KInt.mul a b => evalK env a * evalK env b
  | KInt.imax a b => max (evalK env a) (evalK env b)

/-- Symbolic kernel-IR boolean (kir::Bool): a constant, a symbolic leaf
(such as an externally supplied thread predicate), a conjunction, or a
comparison node over symbolic integers. -/
inductive KBool where
  | const : Bool → KBool
  | bvar : Nat → KBool
  | and : KBool → KBool → KBool
  | ge : KInt → KInt → KBool
  | lt : KInt → KInt → KBool
deriving DecidableEq, Repr

/-- Modelled from the spec: kir::SimplifyingIrBuilder::addExpr, part of the
symbolic-expression-builder collaborator whose source is not in the
repository slice.  Per spec section 6 it constructs add nodes with
automatic constant folding: adding a known zero collapses and adding two
known constants folds to a literal. -/
def saddExpr (x y : KInt) : KInt :=
  match x, y with
  | KInt.const a, KInt.const b => KInt.const (a + b)
  | KInt.const 0, y2 => y2
  | x2, KInt.const 0 => x2
  | x2, y2 => KInt.add x2 y2

/-- Modelled from the spec: kir::SimplifyingIrBuilder::subExpr, the
subtraction builder of the same external collaborator, with the analogous
constant folding. -/
def ssubExpr (x y : KInt) : KInt :=
  match x, y with
  | KInt.const a, KInt.const b => KInt.const (a - b)
  | x2, KInt.const 0 => x2
  | x2, y2 => KInt.sub x2 y2

/-- Modelled from the spec: kir::SimplifyingIrBuilder::geExpr, the
greater-or-equal comparison builder; comparing two known constants folds to
a boolean literal. -/
def sgeExpr (x y : KInt) : KBool :=
  match x, y with
  | KInt.const a, KInt.const b => KBool.const (decide (b ≤ a))
  | x2, y2 => KBool.ge x2 y2

/-- Modelled from the spec: kir::SimplifyingIrBuilder::ltExpr, the
strictly-less comparison builder; comparing two known constants folds to a
boolean literal. -/
def sltExpr (x y : KInt) : KBool :=
  match x, y with
  | KInt.const a, KInt.const b => KBool.const (decide (a < b))
  | x2, y2 => KBool.lt x2 y2

/-- Modelled from the spec: kir::SimplifyingIrBuilder::andExpr as used with
a left operand that may be null (the accumulating predicate of
ShiftPredicateInserter::getPredicate starts as nullptr); a null left
operand yields the right operand, otherwise a conjunction node is built. -/
def sandExpr (p : Option KBool) (x : KBool) : KBool :=
  match p with
  | none => x
  | some q => KBool.and q x

/-- Translation of std::abs on the int shift offset. -/
def intAbs (x : Int) : Int := if x < 0 then -x else x

/-- AxisHaloInfo (lower_shift.h/.cpp): the pair of low-side (position 0)
and high-side (position 1) halo widths of one root axis. -/
structure AxisHaloInfo where
  width0 : KInt
  width1 : KInt
deriving DecidableEq, Repr

/-- AxisHaloInfo::AxisHaloInfo: both widths start as the builder's zero
value. -/
def zeroAxisHaloInfo : AxisHaloInfo := ⟨KInt.const 0, KInt.const 0⟩

/-- AxisHaloInfo::width(int pos): position 0 is the low side, position 1
the high side. -/
def AxisHaloInfo.width (h : AxisHaloInfo) (pos : Nat) : KInt :=
  if pos = 0 then h.width0 else h.width1

/-- AxisHaloInfo::width(): combined width, built with
SimplifyingIrBuilder::addExpr over the two sides. -/
def AxisHaloInfo.combinedWidth (h : AxisHaloInfo) : KInt :=
  saddExpr h.width0 h.width1

/-- Body of AxisHaloInfo::merge(int pos, kir::Int* other): if both the
current width and the other width are compile-time constants the result is
the constant max; otherwise a known-zero operand yields the other operand,
and the general case builds a max node (with the plain, non-folding
kir::IrBuilder). -/
def mergeWidth (cur other : KInt) : KInt :=
  match cur.constValue, other.constValue with
  | some a, some b => KInt.const (max a b)
  | _, _ =>
    if cur.isZeroInt then other
    else if other.isZeroInt then cur
    else KInt.imax cur other

/-- AxisHaloInfo::merge(int pos, kir::Int* other) applied to the
structure: replaces the width at pos by the merged width. -/
def AxisHaloInfo.mergeAt (h : AxisHaloInfo) (pos : Nat) (other : KInt) :
    AxisHaloInfo :=
  if pos = 0 then { h with width0 := mergeWidth h.width0 other }
  else { h with width1 := mergeWidth h.width1 other }

/-- AxisHaloInfo::merge(const AxisHaloInfo&): merge both positions in
order. -/
def AxisHaloInfo.mergeInfo (h o : AxisHaloInfo) : AxisHaloInfo :=
  (h.mergeAt 0 (o.width 0)).mergeAt 1 (o.width 1)

/-- AxisHaloInfo::hasHalo: some width is not the known-zero constant. -/
def AxisHaloInfo.hasHalo (h : AxisHaloInfo) : Bool :=
  !h.width0.isZeroInt || !h.width1.isZeroInt

/-- Closed tagged variant over the operator kinds inspected by the halo
analysis: a ShiftOp with its per-axis integer offsets and pad flag, a
GatherOp with its per-axis window shape, left pad widths and window-axis
positions, or any other (elementwise/general) operator. -/
inductive DefOp where
  | shiftOp : List Int → Bool → DefOp
  | gatherOp : List KInt → List Int → List Nat → DefOp
  | otherOp : DefOp
deriving DecidableEq, Repr

/-- Per-axis body of HaloInfo::propagateRootAxisInfo(producer, consumer,
expr) (lower_shift.cpp lines 512-579), computing the value stored back for
the producer axis mapped to consumer root axis i.  none models the
TORCH_INTERNAL_ASSERT that a broadcast consumer axis carries no halo.
Notable detail of the source: in the gather branch with a unit window the
merge is computed into the local copy p_info but the loop continues before
setRootAxisInfo writes it back, so the stored producer info is unchanged. -/
def propagateRootAxisInfoAxis (expr : DefOp) (i : Nat) (cBroadcast : Bool)
    (pInfo cInfo : AxisHaloInfo) : Option AxisHaloInfo :=
  if cBroadcast then
    if cInfo.hasHalo then none else some (pInfo.mergeInfo cInfo)
  else
    match expr with
    | DefOp.shiftOp offsets _ =>
      let offset := offsets.getD i 0
      if offset = 0 then some (pInfo.mergeInfo cInfo)
      else
        let pos := if 0 < offset then 0 else 1
        some (pInfo.mergeAt pos
          (saddExpr (cInfo.width pos) (KInt.const (intAbs offset))))
    | DefOp.gatherOp windowShape padWidth _ =>
      let windowDim := windowShape.getD i (KInt.const 1)
      if windowDim.isOneInt then
        -- p_info.merge(c_info) is computed but the continue skips the
        -- setRootAxisInfo write-back, so the stored info is unchanged
        some pInfo
      else
        let padDim0 := KInt.const (padWidth.getD i 0)
        let p1 := pInfo.mergeAt 0 (saddExpr (cInfo.width 0) padDim0)
        let p2 := p1.mergeAt 1
          (ssubExpr (saddExpr (cInfo.width 1) windowDim)
            (saddExpr padDim0 (KInt.const 1)))
        some p2
    | DefOp.otherOp => some (pInfo.mergeInfo cInfo)

/-- HaloInfo::propagateRootAxisInfo for one producer/consumer axis pair,
including the early return that never attributes halo to fusion inputs. -/
def propagateRootAxisInfoP (producerIsFusionInput : Bool) (expr : DefOp)
    (i : Nat) (cBroadcast : Bool) (pInfo cInfo : AxisHaloInfo) :
    Option AxisHaloInfo :=
  if producerIsFusionInput then some pInfo
  else propagateRootAxisInfoAxis expr i cBroadcast pInfo cInfo

/-- C1: for a shift by offset o on an axis with no prior halo (producer not
a fusion input, consumer axis not broadcast), backward propagation stores
producer low-side halo max(o,0) and high-side halo max(-o,0); at offset
zero the consumer info is merged into the producer unchanged. -/
theorem shift_offset_roundtrip (offsets : List Int) (pad : Bool) (i : Nat)
    (o : Int) (pInfo cInfo : AxisHaloInfo) (hoff : offsets.getD i 0 = o) :
    (o ≠ 0 → pInfo = zeroAxisHaloInfo → cInfo = zeroAxisHaloInfo →
      propagateRootAxisInfoP false (DefOp.shiftOp offsets pad) i false pInfo cInfo
        = some ⟨KInt.const (max o 0), KInt.const (max (-o) 0)⟩) ∧
    (o = 0 →
      propagateRootAxisInfoP false (DefOp.shiftOp offsets pad) i false pInfo cInfo
        = some (pInfo.mergeInfo cInfo)) := by
  constructor
  · intro ho hp hc
    subst hp; subst hc
    simp only [propagateRootAxisInfoP, propagateRootAxisInfoAxis]
    rw [hoff]
    rcases lt_or_gt_of_ne ho with hneg | hpos
    · simp [ho, not_lt.mpr hneg.le, intAbs, hneg, AxisHaloInfo.mergeAt,
        AxisHaloInfo.width, mergeWidth, saddExpr, KInt.constValue,
        zeroAxisHaloInfo]
      constructor <;> omega
    · simp [ho, hpos, intAbs, not_lt.mpr hpos.le, AxisHaloInfo.mergeAt,
        AxisHaloInfo.width, mergeWidth, saddExpr, KInt.constValue,
        zeroAxisHaloInfo]
      constructor <;> omega
  · intro ho
    simp only [propagateRootAxisInfoP, propagateRootAxisInfoAxis]
    rw [hoff]
    simp [ho]

theorem shift_offset_roundtrip_witness :
    propagateRootAxisInfoP false (DefOp.shiftOp [2] true) 0 false
        zeroAxisHaloInfo zeroAxisHaloInfo
      = some ⟨KInt.const (max 2 0), KInt.const (max (-2) 0)⟩ :=
  (shift_offset_roundtrip [2] true 0 2 zeroAxisHaloInfo zeroAxisHaloInfo
    rfl).1 (by decide) rfl rfl

/-- C2: the source computes p_info.merge(c_info) for a unit-window gather
axis but the continue statement skips the setRootAxisInfo write-back, so a
consumer halo of width 3 is dropped instead of being merged into the
producer as the claim states. -/
theorem gather_unit_window_merge_dropped :
    propagateRootAxisInfoP false (DefOp.gatherOp [KInt.const 1] [0] [0]) 0
        false zeroAxisHaloInfo ⟨KInt.const 3, KInt.const 0⟩
      = some zeroAxisHaloInfo ∧
    zeroAxisHaloInfo.mergeInfo ⟨KInt.const 3, KInt.const 0⟩
      ≠ zeroAxisHaloInfo := by
  decide

/-- Supporting fact for the unrebutted part of C2: for a gather with
window size w greater than one and left padding p (0 ≤ p ≤ w-1) on an axis
with no prior halo, propagation stores low-halo p and high-halo w-p-1. -/
theorem gather_window_halo_exact (w : Int) (p : Int) (gaxes : List Nat)
    (hw : 1 < w) (hp : 0 ≤ p) (hpw : p + 1 ≤ w) :
    propagateRootAxisInfoP false
        (DefOp.gatherOp [KInt.const w] [p] gaxes) 0 false
        zeroAxisHaloInfo zeroAxisHaloInfo
      = some ⟨KInt.const p, KInt.const (w - p - 1)⟩ := by
  have hwone : (KInt.const w).isOneInt = false := by
    simp [KInt.isOneInt, KInt.constValue]
    omega
  simp [propagateRootAxisInfoP, propagateRootAxisInfoAxis, hwone,
    AxisHaloInfo.mergeAt, AxisHaloInfo.width, mergeWidth, saddExpr, ssubExpr,
    KInt.constValue, zeroAxisHaloInfo]
  constructor <;> omega

theorem gather_window_halo_exact_witness :
    propagateRootAxisInfoP false
        (DefOp.gatherOp [KInt.const 3] [1] [1]) 0 false
        zeroAxisHaloInfo zeroAxisHaloInfo
      = some ⟨KInt.const 1, KInt.const (3 - 1 - 1)⟩ :=
  gather_window_halo_exact 3 1 [1] (by decide) (by decide) (by decide)

/-- C8: AxisHaloInfo::merge per side satisfies merge(a, zero) = a (for
non-negative constant widths), is commutative in the value of the result,
and on two compile-time constants yields exactly the constant max, hence a
result at least as large as either input. -/
theorem merge_width_monotone (a b : KInt) (env : Nat → Int) (x y : Int) :
    ((∀ v, a = KInt.const v → 0 ≤ v) → mergeWidth a (KInt.const 0) = a) ∧
    evalK env (mergeWidth a b) = evalK env (mergeWidth b a) ∧
    (mergeWidth (KInt.const x) (KInt.const y) = KInt.const (max x y) ∧
      x ≤ max x y ∧ y ≤ max x y) := by
  refine ⟨?_, ?_, by simp [mergeWidth, KInt.constValue],
    le_max_left x y, le_max_right x y⟩
  · intro hnn
    cases a with
    | const v =>
      have hv : 0 ≤ v := hnn v rfl
      simp [mergeWidth, KInt.constValue]
      omega
    | var n => simp [mergeWidth, KInt.constValue, KInt.isZeroInt]
    | add s t => simp [mergeWidth, KInt.constValue, KInt.isZeroInt]
    | sub s t => simp [mergeWidth, KInt.constValue, KInt.isZeroInt]
    | mul s t => simp [mergeWidth, KInt.constValue, KInt.isZeroInt]
    | imax s t => simp [mergeWidth, KInt.constValue, KInt.isZeroInt]
  · rcases h1 : a.constValue with _ | v <;> rcases h2 : b.constValue with _ | w
    · simp [mergeWidth, h1, h2, KInt.isZeroInt, evalK, max_comm]
    · by_cases hw : w = 0
      · subst hw
        simp [mergeWidth, h1, h2, KInt.isZeroInt]
      · simp [mergeWidth, h1, h2, KInt.isZeroInt, hw, evalK, max_comm]
    · by_cases hv : v = 0
      · subst hv
        simp [mergeWidth, h1, h2, KInt.isZeroInt]
      · simp [mergeWidth, h1, h2, KInt.isZeroInt, hv, evalK, max_comm]
    · simp [mergeWidth, h1, h2, KInt.isZeroInt, evalK, max_comm]

theorem merge_width_monotone_witness :
    mergeWidth (KInt.var 5) (KInt.const 0) = KInt.var 5 ∧
    evalK (fun _ => 4) (mergeWidth (KInt.var 5) (KInt.const 7))
      = evalK (fun _ => 4) (mergeWidth (KInt.const 7) (KInt.var 5)) ∧
    (mergeWidth (KInt.const 2) (KInt.const 5) = KInt.const (max 2 5) ∧
      (2 : Int) ≤ max 2 5 ∧ (5 : Int) ≤ max 2 5) := by
  have h := merge_width_monotone (KInt.var 5) (KInt.const 7) (fun _ => 4) 2 5
  exact ⟨h.1 (fun v hv => KInt.noConfusion hv), h.2.1, h.2.2⟩

/-- Axis identity used for the forward (root-to-leaf) propagation maps. -/
abbrev AxisId := Nat

/-- State threaded through HaloInfo::build(TensorDomain*) forward
propagation: halo_width_map_, kir_extent_map_ (keyed here by the same axis
ids, lowering modelled as the identity), and merged_shifted_ids. -/
structure HaloBuildState where
  haloWidthMap : List (AxisId × KInt)
  extentMap : List (AxisId × KInt)
  mergedShiftedIds : List AxisId
deriving DecidableEq, Repr

/-- Domain expressions traversed by HaloInfo::build(TensorDomain*): a Split
of an input axis into outer and inner outputs (carrying the inner output's
raw extent), or a Merge of outer and inner axes into an output (carrying
both raw extents). -/
inductive DomExpr where
  | splitE : AxisId → AxisId → AxisId → KInt → DomExpr
  | mergeE : AxisId → AxisId → AxisId → KInt → KInt → DomExpr
deriving DecidableEq, Repr

/-- One step of the forward traversal of HaloInfo::build(TensorDomain*)
(lower_shift.cpp lines 654-714).  none models the fatal assertions:
splitting an axis recorded in merged_shifted_ids, and a missing halo-width
entry for a split input.  Extent expressions are built with the plain
(non-folding) kir::IrBuilder, hence the raw add and mul nodes. -/
def stepHaloBuild (st : HaloBuildState) : DomExpr → Option HaloBuildState
  | DomExpr.splitE inId outerId innerId innerExtent =>
    if inId ∈ st.mergedShiftedIds then none
    else
      match st.haloWidthMap.lookup inId with
      | none => none
      | some haloWidth =>
        if haloWidth.isZeroInt then
          some { st with haloWidthMap :=
            (innerId, haloWidth) :: (outerId, haloWidth) :: st.haloWidthMap }
        else
          some { st with
            extentMap :=
              (innerId, KInt.add innerExtent haloWidth) :: st.extentMap,
            haloWidthMap :=
              (innerId, haloWidth) :: (outerId, KInt.const 0)
                :: st.haloWidthMap }
  | DomExpr.mergeE outerId innerId outId outerExtent innerExtent =>
    match st.extentMap.lookup innerId, st.extentMap.lookup outerId with
    | none, none =>
      some { st with
        haloWidthMap := (outId, KInt.const 0) :: st.haloWidthMap }
    | ie, oe =>
      some { st with
        extentMap :=
          (outId, KInt.mul (oe.getD outerExtent) (ie.getD innerExtent))
            :: st.extentMap,
        mergedShiftedIds := outId :: st.mergedShiftedIds }

/-- C3: splitting a zero-halo axis inserts zero halo widths for both split
outputs and adds no extended-extent entry; splitting a nonzero-halo axis
gives the outer output zero width and the inner output the input width
together with extended extent raw-extent + halo; splitting the output of a
merge of halo-extended axes is a fatal error. -/
theorem split_halo_propagation (st : HaloBuildState)
    (inId outerId innerId : AxisId) (innerExtent w : KInt)
    (hdiff : outerId ≠ innerId) :
    (inId ∉ st.mergedShiftedIds → st.haloWidthMap.lookup inId = some w →
      w.isZeroInt = true →
      stepHaloBuild st (DomExpr.splitE inId outerId innerId innerExtent)
        = some { st with haloWidthMap :=
            (innerId, w) :: (outerId, w) :: st.haloWidthMap }) ∧
    (inId ∉ st.mergedShiftedIds → st.haloWidthMap.lookup inId = some w →
      w.isZeroInt = false →
      ∃ st2,
        stepHaloBuild st (DomExpr.splitE inId outerId innerId innerExtent)
          = some st2 ∧
        st2.haloWidthMap.lookup outerId = some (KInt.const 0) ∧
        st2.haloWidthMap.lookup innerId = some w ∧
        st2.extentMap.lookup innerId = some (KInt.add innerExtent w) ∧
        st2.extentMap.lookup outerId = st.extentMap.lookup outerId) ∧
    (∀ (mOuter mInner mOut : AxisId) (oExt iExt e : KInt)
        (st2 : HaloBuildState) (oId2 iId2 : AxisId) (ext2 : KInt),
      st.extentMap.lookup mInner = some e →
      stepHaloBuild st (DomExpr.mergeE mOuter mInner mOut oExt iExt)
        = some st2 →
      stepHaloBuild st2 (DomExpr.splitE mOut oId2 iId2 ext2) = none) := by
  refine ⟨?_, ?_, ?_⟩
  · intro hmem hlk hzero
    simp [stepHaloBuild, hmem, hlk, hzero]
  · intro hmem hlk hzero
    have hbe : (outerId == innerId) = false := by simp [hdiff]
    refine ⟨{ st with
        extentMap := (innerId, KInt.add innerExtent w) :: st.extentMap,
        haloWidthMap :=
          (innerId, w) :: (outerId, KInt.const 0) :: st.haloWidthMap },
      ?_, ?_, ?_, ?_, ?_⟩ <;>
      simp [stepHaloBuild, hmem, hlk, hzero, List.lookup, hbe]
  · intro mOuter mInner mOut oExt iExt e st2 oId2 iId2 ext2 hlk hstep
    have hmem : mOut ∈ st2.mergedShiftedIds := by
      rw [stepHaloBuild] at hstep
      rcases h2 : st.extentMap.lookup mOuter with _ | oe <;>
        simp [hlk, h2] at hstep <;> simp [← hstep]
    simp [stepHaloBuild, hmem]

theorem split_halo_propagation_witness :
    ∃ st2,
      stepHaloBuild ⟨[(0, KInt.const 2)], [], []⟩
          (DomExpr.splitE 0 1 2 (KInt.var 0)) = some st2 ∧
      st2.haloWidthMap.lookup 1 = some (KInt.const 0) ∧
      st2.haloWidthMap.lookup 2 = some (KInt.const 2) ∧
      st2.extentMap.lookup 2 = some (KInt.add (KInt.var 0) (KInt.const 2)) ∧
      st2.extentMap.lookup 1
        = (HaloBuildState.mk [(0, KInt.const 2)] [] []).extentMap.lookup 1 :=
  (split_halo_propagation ⟨[(0, KInt.const 2)], [], []⟩ 0 1 2 (KInt.var 0)
    (KInt.const 2) (by decide)).2.1 (by decide) (by decide) (by decide)

/-- IterDomain as seen by the extent comparator: either a plain axis (its
definition is not a Merge) or the output of a Merge whose operands are the
outer and inner input axes. -/
inductive IDom where
  | leaf : Nat → IDom
  | mergeOut : IDom → IDom → IDom
deriving DecidableEq, Repr

/-- Comparison function of HaloInfo::extentLessEqual: object identity,
otherwise both widths must have static values that are ordered. -/
def leCmpInt (x y : KInt) : Bool :=
  if x = y then true
  else
    match x.constValue, y.constValue with
    | some a, some b => decide (a ≤ b)
    | _, _ => false

/-- Comparison function of HaloInfo::extentEqual: object identity, equal
static values, or definitions by the same expression kind with recursively
equal operands. -/
def eqCmpInt (x y : KInt) : Bool :=
  if x = y then true
  else
    match x, y with
    | KInt.const a, KInt.const b => decide (a = b)
    | KInt.add a b, KInt.add c d => eqCmpInt a c && eqCmpInt b d
    | KInt.sub a b, KInt.sub c d => eqCmpInt a c && eqCmpInt b d
    | KInt.mul a b, KInt.mul c d => eqCmpInt a c && eqCmpInt b d
    | KInt.imax a b, KInt.imax c d => eqCmpInt a c && eqCmpInt b d
    | _, _ => false

/-- extentCompare (lower_shift.cpp lines 861-901): the two axes must be
loop mapped (fatal assertion otherwise); if both have recorded halo widths
the widths are compared with cmp; if neither has one, both must be merge
outputs and the inner and outer operand pairs are compared recursively,
both needing to hold; every other situation is a fatal assertion (none). -/
def extentCompare (lm : IDom → IDom → Bool) (hw : IDom → Option KInt)
    (cmp : KInt → KInt → Bool) : IDom → IDom → Option Bool
  | IDom.leaf n1, id2 =>
    if lm (IDom.leaf n1) id2 = false then none
    else
      match hw (IDom.leaf n1), hw id2 with
      | some w1, some w2 => some (cmp w1 w2)
      | _, _ => none
  | IDom.mergeOut o1 i1, id2 =>
    if lm (IDom.mergeOut o1 i1) id2 = false then none
    else
      match hw (IDom.mergeOut o1 i1), hw id2 with
      | some w1, some w2 => some (cmp w1 w2)
      | some _, none => none
      | none, some _ => none
      | none, none =>
        match id2 with
        | IDom.mergeOut o2 i2 =>
          match extentCompare lm hw cmp i1 i2 with
          | none => none
          | some innerLe =>
            match extentCompare lm hw cmp o1 o2 with
            | none => none
            | some outerLe => some (innerLe && outerLe)
        | _ => none

/-- HaloInfo::extentLessEqual. -/
def extentLessEqual (lm : IDom → IDom → Bool) (hw : IDom → Option KInt)
    (id1 id2 : IDom) : Option Bool :=
  extentCompare lm hw leCmpInt id1 id2

/-- HaloInfo::extentEqual. -/
def extentEqual (lm : IDom → IDom → Bool) (hw : IDom → Option KInt)
    (id1 id2 : IDom) : Option Bool :=
  extentCompare lm hw eqCmpInt id1 id2

/-- C4: for loop-mapped axes, extentEqual proves equality when both
recorded halo widths are the same constant or object, and for merge
outputs whose operand pairs are each proven equal; it never returns true on
differing constant widths, and extentLessEqual never proves an unresolved
(non-constant, non-identical) symbolic comparison. -/
theorem extent_comparator_soundness (lm : IDom → IDom → Bool)
    (hw : IDom → Option KInt) (id1 id2 : IDom) :
    (∀ w, lm id1 id2 = true → hw id1 = some w → hw id2 = some w →
      extentEqual lm hw id1 id2 = some true) ∧
    (∀ o1 i1 o2 i2, id1 = IDom.mergeOut o1 i1 → id2 = IDom.mergeOut o2 i2 →
      lm id1 id2 = true → hw id1 = none → hw id2 = none →
      extentEqual lm hw i1 i2 = some true →
      extentEqual lm hw o1 o2 = some true →
      extentEqual lm hw id1 id2 = some true) ∧
    (∀ a b : Int, hw id1 = some (KInt.const a) →
      hw id2 = some (KInt.const b) → a ≠ b →
      extentEqual lm hw id1 id2 ≠ some true) ∧
    (∀ x y, hw id1 = some x → hw id2 = some y → x ≠ y →
      (x.constValue = none ∨ y.constValue = none) →
      extentLessEqual lm hw id1 id2 ≠ some true) := by
  have hsome : ∀ (cmp : KInt → KInt → Bool) (w1 w2 : KInt),
      lm id1 id2 = true → hw id1 = some w1 → hw id2 = some w2 →
      extentCompare lm hw cmp id1 id2 = some (cmp w1 w2) := by
    intro cmp w1 w2 hlm h1 h2
    cases id1 <;> simp [extentCompare, hlm, h1, h2]
  have hlmf : ∀ (cmp : KInt → KInt → Bool), lm id1 id2 = false →
      extentCompare lm hw cmp id1 id2 = none := by
    intro cmp hlm
    cases id1 <;> simp [extentCompare, hlm]
  refine ⟨?_, ?_, ?_, ?_⟩
  · intro w hlm h1 h2
    rw [extentEqual, hsome eqCmpInt w w hlm h1 h2]
    unfold eqCmpInt
    simp
  · intro o1 i1 o2 i2 he1 he2 hlm h1 h2 hi ho
    subst he1; subst he2
    unfold extentEqual at hi ho ⊢
    simp [extentCompare, hlm, h1, h2, hi, ho]
  · intro a b h1 h2 hab
    rcases hlm : lm id1 id2 with _ | _
    · rw [extentEqual, hlmf eqCmpInt hlm]
      simp
    · have hcmp : eqCmpInt (KInt.const a) (KInt.const b) = false := by
        unfold eqCmpInt
        simp [hab]
      rw [extentEqual, hsome eqCmpInt _ _ hlm h1 h2, hcmp]
      simp
  · intro x y h1 h2 hxy hnc
    rcases hlm : lm id1 id2 with _ | _
    · rw [extentLessEqual, hlmf leCmpInt hlm]
      simp
    · have hcmp : leCmpInt x y = false := by
        unfold leCmpInt
        rcases hx : x.constValue with _ | a <;>
          rcases hy : y.constValue with _ | b <;>
          simp_all
      rw [extentLessEqual, hsome leCmpInt _ _ hlm h1 h2, hcmp]
      simp

/-- Demonstration halo-width table for the comparator witness. -/
def hwDemo : IDom → Option KInt
  | IDom.leaf 0 => some (KInt.const 2)
  | IDom.leaf 1 => some (KInt.const 2)
  | IDom.leaf 2 => some (KInt.const 2)
  | IDom.leaf 3 => some (KInt.const 2)
  | IDom.leaf 4 => some (KInt.const 5)
  | IDom.leaf 5 => some (KInt.var 9)
  | _ => none

theorem extent_comparator_soundness_witness :
    extentEqual (fun _ _ => true) hwDemo (IDom.leaf 0) (IDom.leaf 1)
      = some true ∧
    extentEqual (fun _ _ => true) hwDemo
      (IDom.mergeOut (IDom.leaf 0) (IDom.leaf 1))
      (IDom.mergeOut (IDom.leaf 2) (IDom.leaf 3)) = some true ∧
    extentEqual (fun _ _ => true) hwDemo (IDom.leaf 0) (IDom.leaf 4)
      ≠ some true ∧
    extentLessEqual (fun _ _ => true) hwDemo (IDom.leaf 0) (IDom.leaf 5)
      ≠ some true := by
  refine ⟨?_, ?_, ?_, ?_⟩
  · exact (extent_comparator_soundness (fun _ _ => true) hwDemo
      (IDom.leaf 0) (IDom.leaf 1)).1 (KInt.const 2) rfl rfl rfl
  · refine (extent_comparator_soundness (fun _ _ => true) hwDemo
      (IDom.mergeOut (IDom.leaf 0) (IDom.leaf 1))
      (IDom.mergeOut (IDom.leaf 2) (IDom.leaf 3))).2.1
      (IDom.leaf 0) (IDom.leaf 1) (IDom.leaf 2) (IDom.leaf 3)
      rfl rfl rfl rfl rfl ?_ ?_
    · exact (extent_comparator_soundness (fun _ _ => true) hwDemo
        (IDom.leaf 1) (IDom.leaf 3)).1 (KInt.const 2) rfl rfl rfl
    · exact (extent_comparator_soundness (fun _ _ => true) hwDemo
        (IDom.leaf 0) (IDom.leaf 2)).1 (KInt.const 2) rfl rfl rfl
  · exact (extent_comparator_soundness (fun _ _ => true) hwDemo
      (IDom.leaf 0) (IDom.leaf 4)).2.2.1 2 5 rfl rfl (by decide)
  · exact (extent_comparator_soundness (fun _ _ => true) hwDemo
      (IDom.leaf 0) (IDom.leaf 5)).2.2.2 (KInt.const 2) (KInt.var 9)
      rfl rfl (by decide) (Or.inr rfl)

/-- Parallel types relevant to HaloInfo::validate. -/
inductive ParallelType where
  | Serial
  | TIDx
  | TIDy
  | TIDz
  | BIDx
  | BIDy
  | BIDz
  | Vectorize
  | Unroll
deriving DecidableEq, Repr

/-- isParallelTypeThreadDim: warp/thread-level (TID) parallel types. -/
def isParallelTypeThreadDim : ParallelType → Bool
  | ParallelType.TIDx => true
  | ParallelType.TIDy => true
  | ParallelType.TIDz => true
  | _ => false

/-- isParallelTypeBlockDim: block-level (BID) parallel types. -/
def isParallelTypeBlockDim : ParallelType → Bool
  | ParallelType.BIDx => true
  | ParallelType.BIDy => true
  | ParallelType.BIDz => true
  | _ => false

/-- isParallelTypeThread: any thread-indexed (TID or BID) parallel type. -/
def isParallelTypeThread (p : ParallelType) : Bool :=
  isParallelTypeThreadDim p || isParallelTypeBlockDim p

/-- Memory placements relevant to the validator and predicate inserter. -/
inductive MemoryType where
  | Local
  | Shared
  | Global
deriving DecidableEq, Repr

/-- External lowering collaborators consumed by HaloInfo::validate: the CA
loop map, the CA parallel map (concrete mapped id and its parallel type),
the halo width map and the halo extent map built by HaloInfo::build. -/
structure LowerEnv where
  loopMapped : IDom → IDom → Bool
  concreteOf : IDom → IDom
  ptypeOf : IDom → ParallelType
  hw : IDom → Option KInt
  extentOf : IDom → Option KInt

/-- A tensor-view use inspected by HaloInfo::validate: either a
ShiftOp/GatherOp use, or another tensor operation carrying its consumer
leaf domain. -/
inductive VUse where
  | shiftOrGatherUse : VUse
  | otherUse : List IDom → VUse
deriving DecidableEq, Repr

/-- Tensor data consumed by HaloInfo::validate: memory type, leaf domain
and tensor-view uses. -/
structure VTensor where
  memType : MemoryType
  domain : List IDom
  uses : List VUse
deriving DecidableEq, Repr

/-- Shared-visibility scan of HaloInfo::validate (lower_shift.cpp lines
773-797): a ShiftOp/GatherOp use forces shared memory; for other uses the
first loop-mapped consumer axis is compared with extentEqual, an unproven
equality forcing shared memory; none models an assertion failure inside
the comparison. -/
def sharedMemNeeded (env : LowerEnv) (axis : IDom) : List VUse → Option Bool
  | [] => some false
  | VUse.shiftOrGatherUse :: _ => some true
  | VUse.otherUse consumerDomain :: rest =>
    match consumerDomain.find? (fun ca => env.loopMapped axis ca) with
    | none => sharedMemNeeded env axis rest
    | some ca =>
      match extentEqual env.loopMapped env.hw axis ca with
      | none => none
      | some true => sharedMemNeeded env axis rest
      | some false => some true

/-- Per-axis body of HaloInfo::validate (lower_shift.cpp lines 740-821):
the axis extent must be provably equal to its concrete mapped id; axes
without a recorded halo extent and serial axes pass; other parallel types
must be thread-indexed; if shared visibility is needed, thread-dim
parallel axes demand shared memory and block-dim parallel axes always
fail. -/
def validateAxis (env : LowerEnv) (memType : MemoryType) (uses : List VUse)
    (axis : IDom) : Option Unit :=
  match extentEqual env.loopMapped env.hw axis (env.concreteOf axis) with
  | some true =>
    match env.extentOf axis with
    | none => some ()
    | some _ =>
      let ptype := env.ptypeOf (env.concreteOf axis)
      if ptype = ParallelType.Serial then some ()
      else if isParallelTypeThread ptype = false then none
      else
        match sharedMemNeeded env axis uses with
        | none => none
        | some false => some ()
        | some true =>
          if isParallelTypeThreadDim ptype then
            if memType = MemoryType.Shared then some () else none
          else none
  | _ => none

/-- Axis loop of HaloInfo::validate over the tensor leaf domain. -/
def validateAxes (env : LowerEnv) (memType : MemoryType) (uses : List VUse) :
    List IDom → Option Unit
  | [] => some ()
  | a :: rest =>
    match validateAxis env memType uses a with
    | none => none
    | some _ => validateAxes env memType uses rest

/-- HaloInfo::validate(TensorView*). -/
def validateTV (env : LowerEnv) (tv : VTensor) : Option Unit :=
  validateAxes env tv.memType tv.uses tv.domain

/-- C5 counterexample: a tensor whose only axis is halo-extended and
block-parallel but has no uses passes validation (the shared-visibility
scan yields false and the block-dim check is never reached), so validation
does not fail for every block-parallel halo-extended axis. -/
theorem validate_block_parallel_counterexample :
    validateTV
      { loopMapped := fun _ _ => true
        concreteOf := fun d => d
        ptypeOf := fun _ => ParallelType.BIDx
        hw := fun _ => some (KInt.const 2)
        extentOf := fun _ => some (KInt.const 12) }
      { memType := MemoryType.Global
        domain := [IDom.leaf 0]
        uses := [] } = some () := by
  rfl

/-- C5 amended: whenever a halo-extended axis is block-parallel and its
shared-visibility scan over the tensor uses demands shared memory, the
validator fails hard regardless of the tensor memory type. -/
theorem validate_block_parallel_rejection (env : LowerEnv)
    (mem : MemoryType) (dom : List IDom) (uses : List VUse) (axis : IDom)
    (e : KInt) (hmem : axis ∈ dom) (hext : env.extentOf axis = some e)
    (hblock : isParallelTypeBlockDim (env.ptypeOf (env.concreteOf axis))
      = true)
    (hshared : sharedMemNeeded env axis uses = some true) :
    validateTV env { memType := mem, domain := dom, uses := uses }
      = none := by
  have haxis : validateAxis env mem uses axis = none := by
    unfold validateAxis
    rcases heq : extentEqual env.loopMapped env.hw axis (env.concreteOf axis)
      with _ | b
    · simp
    · rcases b with _ | _
      · simp
      · rcases hpt : env.ptypeOf (env.concreteOf axis) <;>
          rw [hpt] at hblock <;>
          simp [isParallelTypeBlockDim] at hblock <;>
          simp [hext, hpt, hshared, isParallelTypeThread,
            isParallelTypeThreadDim, isParallelTypeBlockDim]
  unfold validateTV
  simp only
  induction dom with
  | nil => simp at hmem
  | cons a rest ih =>
    rcases List.mem_cons.mp hmem with hax | hax
    · subst hax
      unfold validateAxes
      rw [haxis]
    · unfold validateAxes
      rcases validateAxis env mem uses a with _ | u
      · simp
      · simp only
        exact ih hax

theorem validate_block_parallel_rejection_witness :
    validateTV
      { loopMapped := fun _ _ => true
        concreteOf := fun d => d
        ptypeOf := fun _ => ParallelType.BIDx
        hw := fun _ => some (KInt.const 2)
        extentOf := fun _ => some (KInt.const 12) }
      { memType := MemoryType.Shared
        domain := [IDom.leaf 0]
        uses := [VUse.shiftOrGatherUse] } = none :=
  validate_block_parallel_rejection
    { loopMapped := fun _ _ => true
      concreteOf := fun d => d
      ptypeOf := fun _ => ParallelType.BIDx
      hw := fun _ => some (KInt.const 2)
      extentOf := fun _ => some (KInt.const 12) }
    MemoryType.Shared [IDom.leaf 0] [VUse.shiftOrGatherUse] (IDom.leaf 0)
    (KInt.const 12) (by simp) rfl rfl rfl

/-- Root-axis data of a consumer tensor as inspected by
HaloInfo::needsShiftPredicate and ShiftPredicateInserter::getPredicate:
broadcast/reduction/trivial-reduction flags, the propagated halo info, and
the lowered axis start, stop and extent. -/
structure PredAxisInfo where
  isBroadcast : Bool
  isReduction : Bool
  isTrivialReduction : Bool
  halo : AxisHaloInfo
  start : KInt
  stop : KInt
  extent : KInt
deriving DecidableEq, Repr

/-- Per-axis condition of HaloInfo::needsShiftPredicate (lower_shift.cpp
lines 998-1002): the axis carries halo, or it is a non-broadcast axis
shifted by a nonzero offset, or a non-broadcast axis gathered with a
non-unit window. -/
def nspCond (e : DefOp) (i : Nat) (a : PredAxisInfo) : Bool :=
  a.halo.hasHalo ||
  (match e with
   | DefOp.shiftOp offsets _ =>
     decide (offsets.getD i 0 ≠ 0) && !a.isBroadcast
   | _ => false) ||
  (match e with
   | DefOp.gatherOp windowShape _ _ =>
     !(windowShape.getD i (KInt.const 1)).isOneInt && !a.isBroadcast
   | _ => false)

/-- Index-carrying loop of HaloInfo::needsShiftPredicate with early return
on the first axis meeting the condition. -/
def needsShiftPredicateAux (e : DefOp) : Nat → List PredAxisInfo → Bool
  | _, [] => false
  | i, a :: rest =>
    if nspCond e i a then true else needsShiftPredicateAux e (i + 1) rest

/-- HaloInfo::needsShiftPredicate(Expr*) over the consumer root domain. -/
def needsShiftPredicate (e : DefOp) (axes : List PredAxisInfo) : Bool :=
  needsShiftPredicateAux e 0 axes

theorem needsShiftPredicateAux_iff (e : DefOp) :
    ∀ (axes : List PredAxisInfo) (j : Nat),
      needsShiftPredicateAux e j axes = true ↔
        ∃ i, ∃ h : i < axes.length,
          nspCond e (j + i) (axes.get ⟨i, h⟩) = true := by
  intro axes
  induction axes with
  | nil => intro j; simp [needsShiftPredicateAux]
  | cons a rest ih =>
    intro j
    unfold needsShiftPredicateAux
    by_cases hc : nspCond e j a = true
    · simp only [hc, if_true, true_iff]
      exact ⟨0, by simp, by simpa using hc⟩
    · rw [if_neg hc, ih (j + 1)]
      constructor
      · rintro ⟨i, h, hcond⟩
        refine ⟨i + 1, by simpa using Nat.succ_lt_succ h, ?_⟩
        have harith : j + (i + 1) = j + 1 + i := by omega
        rw [harith]
        simpa using hcond
      · rintro ⟨i, h, hcond⟩
        cases i with
        | zero =>
          simp at hcond
          exact absurd hcond hc
        | succ k =>
          refine ⟨k, by simpa using Nat.lt_of_succ_lt_succ h, ?_⟩
          have harith : j + 1 + k = j + (k + 1) := by omega
          rw [harith]
          simpa using hcond

/-- C6: needsShiftPredicate is true iff some root axis of the consumer
carries halo or is a non-broadcast shifted/gathered axis with nonzero
offset or non-unit window; for an expression that is neither shift nor
gather and whose axes all carry no halo it is false. -/
theorem needs_shift_predicate_characterization (e : DefOp)
    (axes : List PredAxisInfo) :
    (needsShiftPredicate e axes = true ↔
      ∃ i, ∃ h : i < axes.length, nspCond e i (axes.get ⟨i, h⟩) = true) ∧
    ((∀ a ∈ axes, a.halo.hasHalo = false) →
      needsShiftPredicate DefOp.otherOp axes = false) := by
  constructor
  · rw [needsShiftPredicate, needsShiftPredicateAux_iff e axes 0]
    simp
  · intro hall
    by_contra hcon
    have htrue : needsShiftPredicate DefOp.otherOp axes = true := by
      revert hcon
      cases needsShiftPredicate DefOp.otherOp axes <;> simp
    rcases (needsShiftPredicateAux_iff DefOp.otherOp axes 0).mp htrue
      with ⟨i, h, hcond⟩
    have hmem := hall (axes.get ⟨i, h⟩) (axes.get_mem _ _)
    simp only [List.get_eq_getElem] at hmem
    simp [nspCond, hmem] at hcond

theorem needs_shift_predicate_characterization_witness :
    (needsShiftPredicate (DefOp.shiftOp [1] false)
        [⟨false, false, false, zeroAxisHaloInfo, KInt.const 0,
          KInt.const 8, KInt.const 8⟩] = true) ∧
    needsShiftPredicate DefOp.otherOp
        [⟨false, false, false, zeroAxisHaloInfo, KInt.const 0,
          KInt.const 8, KInt.const 8⟩] = false := by
  constructor
  · exact (needs_shift_predicate_characterization (DefOp.shiftOp [1] false)
      [⟨false, false, false, zeroAxisHaloInfo, KInt.const 0, KInt.const 8,
        KInt.const 8⟩]).1.mpr ⟨0, by decide, by decide⟩
  · refine (needs_shift_predicate_characterization DefOp.otherOp
      [⟨false, false, false, zeroAxisHaloInfo, KInt.const 0, KInt.const 8,
        KInt.const 8⟩]).2 ?_
    intro a ha
    rcases List.mem_singleton.mp ha with rfl
    decide

/-- getShiftProducerIndex (lower_shift.cpp lines 87-102): the producer
index of a shift is the consumer index minus the axis offset (identity at
offset zero), built with the simplifying builder. -/
def getShiftProducerIndexM (i : Nat) (consumerIndex : KInt)
    (offsets : List Int) : KInt :=
  let shiftOffset := offsets.getD i 0
  if shiftOffset = 0 then consumerIndex
  else saddExpr consumerIndex (KInt.const (-shiftOffset))

/-- getGatherProducerIndex (lower_shift.cpp lines 106-135): identity when
the axis is beyond the windowed range or its window is unit size;
otherwise consumer index + window index - left pad, built with the plain
(non-folding) kir::IrBuilder.  The source asserts the window axis is in
range of the indices; the lookup is modelled with a default. -/
def getGatherProducerIndexM (i : Nat) (consumerIndex : KInt)
    (windowShape : List KInt) (padWidth : List Int) (gatherAxes : List Nat)
    (indices : List KInt) : KInt :=
  if windowShape.length ≤ i then consumerIndex
  else if (windowShape.getD i (KInt.const 1)).isOneInt then consumerIndex
  else
    let windowIdx := indices.getD (gatherAxes.getD i 0) (KInt.const 0)
    KInt.sub (KInt.add consumerIndex windowIdx)
      (KInt.const (padWidth.getD i 0))

/-- Producer index selection in getPredicate (lower_shift.cpp lines
222-231): shift and gather use their adjusted producer index, any other
operator uses the consumer root index itself. -/
def producerIndexFor (dop : DefOp) (i : Nat) (consumerIndex : KInt)
    (indices : List KInt) : KInt :=
  match dop with
  | DefOp.shiftOp offsets _ => getShiftProducerIndexM i consumerIndex offsets
  | DefOp.gatherOp windowShape padWidth gatherAxes =>
    getGatherProducerIndexM i consumerIndex windowShape padWidth gatherAxes
      indices
  | DefOp.otherOp => indices.getD i (KInt.const 0)

/-- Per-axis conjuncts of the shift-flavor predicate in getPredicate
(lower_shift.cpp lines 203-304): lower-bound predication against
left limit = low halo + start, then upper-bound predication against
right limit = stop + low halo, selecting the producer index for padded
positive/negative shift offsets and both indices for gather. -/
def shiftPredAxis (dop : DefOp) (indices : List KInt) (i : Nat)
    (a : PredAxisInfo) (pred : Option KBool) : Option KBool :=
  let consumerIndex := indices.getD i (KInt.const 0)
  let leftLimit := saddExpr (a.halo.width 0) a.start
  let rightLimit := saddExpr a.stop (a.halo.width 0)
  let producerIndex := producerIndexFor dop i consumerIndex indices
  let predLow :=
    match dop with
    | DefOp.shiftOp offsets pad =>
      if 0 < offsets.getD i 0 then
        some (sandExpr pred
          (sgeExpr (if pad then producerIndex else consumerIndex)
            leftLimit))
      else if leftLimit.isZeroInt then pred
      else some (sandExpr pred (sgeExpr consumerIndex leftLimit))
    | DefOp.gatherOp _ _ _ =>
      let p1 := sandExpr pred (sgeExpr consumerIndex leftLimit)
      if consumerIndex ≠ producerIndex then
        some (sandExpr (some p1) (sgeExpr producerIndex leftLimit))
      else some p1
    | DefOp.otherOp =>
      if leftLimit.isZeroInt then pred
      else some (sandExpr pred (sgeExpr consumerIndex leftLimit))
  match dop with
  | DefOp.shiftOp offsets pad =>
    if offsets.getD i 0 < 0 then
      some (sandExpr predLow
        (sltExpr (if pad then producerIndex else consumerIndex)
          rightLimit))
    else some (sandExpr predLow (sltExpr consumerIndex rightLimit))
  | DefOp.gatherOp _ _ _ =>
    let p1 := sandExpr predLow (sltExpr consumerIndex rightLimit)
    if consumerIndex ≠ producerIndex then
      some (sandExpr (some p1) (sltExpr producerIndex rightLimit))
    else some p1
  | DefOp.otherOp =>
    some (sandExpr predLow (sltExpr consumerIndex rightLimit))

/-- Per-axis conjunct of the padding-flavor predicate (lower_shift.cpp
lines 305-314): consumer index < extent + combined halo width. -/
def paddingPredAxis (a : PredAxisInfo) (consumerIndex : KInt)
    (pred : Option KBool) : Option KBool :=
  some (sandExpr pred
    (sltExpr consumerIndex (saddExpr a.extent a.halo.combinedWidth)))

/-- Root-axis loop of getPredicate (lower_shift.cpp lines 190-315),
skipping broadcast axes, reduction axes during buffer initialization and
trivially derived reduction axes. -/
def predLoop (dop : DefOp) (indices : List KInt) (isShiftPred : Bool)
    (bufferInit : Bool) : Nat → List PredAxisInfo → Option KBool →
    Option KBool
  | _, [], pred => pred
  | i, a :: rest, pred =>
    let next :=
      if a.isBroadcast || (bufferInit && a.isReduction)
          || a.isTrivialReduction then pred
      else if isShiftPred then shiftPredAxis dop indices i a pred
      else paddingPredAxis a (indices.getD i (KInt.const 0)) pred
    predLoop dop indices isShiftPred bufferInit (i + 1) rest next

/-- Final thread-predicate merge of getPredicate (lower_shift.cpp lines
317-323): a constant-false thread predicate replaces the predicate by the
false literal, a constant-true one leaves it alone, and a symbolic one is
conjoined. -/
def threadPredMerge (pred : Option KBool) (threadPred : KBool) :
    Option KBool :=
  match threadPred with
  | KBool.const b => if b then pred else some (KBool.const false)
  | _ => some (sandExpr pred threadPred)

/-- ShiftPredicateInserter::getPredicate (lower_shift.cpp lines 139-326).
The consumer root-axis data, the externally computed root indices and the
buffer-initialization flag are parameters (the index-computation
collaborator is external).  none models the fatal assertions (the
needsShiftPredicate precondition and the index-count check); the returned
Option KBool is otherwise the built predicate. -/
def getPredicate (dop : DefOp) (axes : List PredAxisInfo)
    (indices : List KInt) (bufferInit : Bool) (memType : MemoryType)
    (threadPred : KBool) (isShiftPred : Bool) : Option KBool :=
  if needsShiftPredicate dop axes = false then none
  else if !isShiftPred &&
      (match dop with
       | DefOp.otherOp => true
       | DefOp.shiftOp _ pad => !pad
       | DefOp.gatherOp _ _ _ => false) then some (KBool.const false)
  else if memType = MemoryType.Local && bufferInit then
    some (KBool.const true)
  else if indices.length ≠ axes.length then none
  else
    threadPredMerge (predLoop dop indices isShiftPred bufferInit 0 axes none)
      threadPred

/-- Strict upper-bound comparison atoms of a predicate tree, in
left-to-right conjunction order. -/
def ltAtoms : KBool → List (KInt × KInt)
  | KBool.and p q => ltAtoms p ++ ltAtoms q
  | KBool.lt x y => [(x, y)]
  | _ => []

/-- C10: the thread-local reduction-buffer-initialization early exit
returns the true literal itself, never conjoining the thread predicate;
and because the padding-only false short-circuit runs first, the same
early exit also applies to the padding flavor for padded shifts and
gathers. -/
theorem local_buffer_init_skips_thread_pred (dop : DefOp)
    (axes : List PredAxisInfo) (indices : List KInt) (threadPred : KBool)
    (hneeds : needsShiftPredicate dop axes = true) :
    getPredicate dop axes indices true MemoryType.Local threadPred true
      = some (KBool.const true) ∧
    ((match dop with
      | DefOp.shiftOp _ pad => pad = true
      | DefOp.gatherOp _ _ _ => True
      | DefOp.otherOp => False) →
      getPredicate dop axes indices true MemoryType.Local threadPred false
        = some (KBool.const true)) := by
  constructor
  · simp [getPredicate, hneeds]
  · intro hdop
    cases dop with
    | shiftOp offsets pad =>
      simp only at hdop
      subst hdop
      simp [getPredicate, hneeds]
    | gatherOp windowShape padWidth gatherAxes =>
      simp [getPredicate, hneeds]
    | otherOp => exact absurd hdop (by simp)

theorem local_buffer_init_skips_thread_pred_witness :
    getPredicate (DefOp.shiftOp [2] true)
        [⟨false, false, false, zeroAxisHaloInfo, KInt.const 0,
          KInt.const 8, KInt.const 8⟩]
        [KInt.var 0] true MemoryType.Local (KBool.const false) true
      = some (KBool.const true) ∧
    getPredicate (DefOp.shiftOp [2] true)
        [⟨false, false, false, zeroAxisHaloInfo, KInt.const 0,
          KInt.const 8, KInt.const 8⟩]
        [KInt.var 0] true MemoryType.Local (KBool.const false) false
      = some (KBool.const true) := by
  have h := local_buffer_init_skips_thread_pred (DefOp.shiftOp [2] true)
    [⟨false, false, false, zeroAxisHaloInfo, KInt.const 0, KInt.const 8,
      KInt.const 8⟩]
    [KInt.var 0] (KBool.const false) (by decide)
  exact ⟨h.1, h.2 rfl⟩

/-- C9 counterexample: with a constant-false thread predicate, the
thread-local buffer-initialization shift predicate is the true literal,
while skipping to the merged thread predicate would produce the false
literal, so the result does not go through the thread-predicate merge. -/
theorem shift_pred_buffer_init_counterexample :
    getPredicate DefOp.otherOp
        [⟨false, false, false, ⟨KInt.const 1, KInt.const 0⟩, KInt.const 0,
          KInt.const 8, KInt.const 8⟩]
        [KInt.var 0] true MemoryType.Local (KBool.const false) true
      = some (KBool.const true) ∧
    threadPredMerge (some (KBool.const true)) (KBool.const false)
      = some (KBool.const false) ∧
    (some (KBool.const true) : Option KBool)
      ≠ some (KBool.const false) := by
  decide

/-- C9 amended: for a thread-local reduction-buffer initialization write,
the shift predicate is unconditionally the constant true, with no per-axis
bound checks and without the thread-participation predicate. -/
theorem shift_pred_buffer_init_true (dop : DefOp)
    (axes : List PredAxisInfo) (indices : List KInt) (threadPred : KBool)
    (hneeds : needsShiftPredicate dop axes = true) :
    getPredicate dop axes indices true MemoryType.Local threadPred true
      = some (KBool.const true) := by
  simp [getPredicate, hneeds]

theorem shift_pred_buffer_init_true_witness :
    getPredicate DefOp.otherOp
        [⟨false, false, false, ⟨KInt.const 1, KInt.const 0⟩, KInt.const 0,
          KInt.const 8, KInt.const 8⟩]
        [KInt.var 0] true MemoryType.Local (KBool.bvar 3) true
      = some (KBool.const true) :=
  shift_pred_buffer_init_true DefOp.otherOp
    [⟨false, false, false, ⟨KInt.const 1, KInt.const 0⟩, KInt.const 0,
      KInt.const 8, KInt.const 8⟩]
    [KInt.var 0] (KBool.bvar 3) (by decide)

theorem ltAtoms_sgeExpr (x y : KInt) : ltAtoms (sgeExpr x y) = [] := by
  cases x <;> cases y <;> simp [sgeExpr, ltAtoms]

theorem ltAtoms_sltExpr_nonconst (x y : KInt)
    (hx : x.constValue = none) : ltAtoms (sltExpr x y) = [(x, y)] := by
  cases x with
  | const v => simp [KInt.constValue] at hx
  | var n => cases y <;> simp [sltExpr, ltAtoms]
  | add s t => cases y <;> simp [sltExpr, ltAtoms]
  | sub s t => cases y <;> simp [sltExpr, ltAtoms]
  | mul s t => cases y <;> simp [sltExpr, ltAtoms]
  | imax s t => cases y <;> simp [sltExpr, ltAtoms]

theorem saddExpr_var_nonconst (v : Nat) (y : KInt) :
    (saddExpr (KInt.var v) y).constValue = none := by
  unfold saddExpr
  split <;> simp_all [KInt.constValue]

theorem getPredicate_run (dop : DefOp) (axes : List PredAxisInfo)
    (indices : List KInt) (mt : MemoryType)
    (hneeds : needsShiftPredicate dop axes = true)
    (hlen : indices.length = axes.length) :
    getPredicate dop axes indices false mt (KBool.const true) true
      = predLoop dop indices true false 0 axes none := by
  simp [getPredicate, hneeds, hlen, threadPredMerge]

theorem predLoop_single (dop : DefOp) (indices : List KInt)
    (a : PredAxisInfo) (hbc : a.isBroadcast = false)
    (htr : a.isTrivialReduction = false) :
    predLoop dop indices true false 0 [a] none
      = shiftPredAxis dop indices 0 a none := by
  simp [predLoop, hbc, htr]

theorem shift_neg_upper_atom (v : Nat) (a : PredAxisInfo)
    (mt : MemoryType) (hbc : a.isBroadcast = false)
    (htr : a.isTrivialReduction = false) (o : Int) (pad : Bool)
    (ho : o < 0) :
    ∃ P, getPredicate (DefOp.shiftOp [o] pad) [a] [KInt.var v] false mt
        (KBool.const true) true = some P ∧
      ltAtoms P = [((if pad then saddExpr (KInt.var v) (KInt.const (-o))
          else KInt.var v), saddExpr a.stop (a.halo.width 0))] := by
  have hne : o ≠ 0 := by omega
  have hnp : ¬ (0 : Int) < o := by omega
  have hneeds : needsShiftPredicate (DefOp.shiftOp [o] pad) [a] = true := by
    simp [needsShiftPredicate, needsShiftPredicateAux, nspCond, hbc, hne]
  rw [getPredicate_run _ _ _ _ hneeds rfl, predLoop_single _ _ _ hbc htr]
  by_cases hz : (saddExpr (a.halo.width 0) a.start).isZeroInt
  · refine ⟨sltExpr (if pad then saddExpr (KInt.var v) (KInt.const (-o))
        else KInt.var v) (saddExpr a.stop (a.halo.width 0)), ?_, ?_⟩
    · simp [shiftPredAxis, producerIndexFor, getShiftProducerIndexM, hz,
        hne, hnp, ho, sandExpr]
    · cases pad with
      | true => exact ltAtoms_sltExpr_nonconst _ _ (saddExpr_var_nonconst v _)
      | false => exact ltAtoms_sltExpr_nonconst _ _ rfl
  · refine ⟨KBool.and
        (sgeExpr (KInt.var v) (saddExpr (a.halo.width 0) a.start))
        (sltExpr (if pad then saddExpr (KInt.var v) (KInt.const (-o))
          else KInt.var v) (saddExpr a.stop (a.halo.width 0))), ?_, ?_⟩
    · simp [shiftPredAxis, producerIndexFor, getShiftProducerIndexM, hz,
        hne, hnp, ho, sandExpr]
    · simp only [ltAtoms, ltAtoms_sgeExpr, List.nil_append]
      cases pad with
      | true => exact ltAtoms_sltExpr_nonconst _ _ (saddExpr_var_nonconst v _)
      | false => exact ltAtoms_sltExpr_nonconst _ _ rfl

theorem shift_pos_upper_atom (v : Nat) (a : PredAxisInfo)
    (mt : MemoryType) (hbc : a.isBroadcast = false)
    (htr : a.isTrivialReduction = false) (o : Int) (pad : Bool)
    (ho : 0 < o) :
    ∃ P, getPredicate (DefOp.shiftOp [o] pad) [a] [KInt.var v] false mt
        (KBool.const true) true = some P ∧
      ltAtoms P = [(KInt.var v, saddExpr a.stop (a.halo.width 0))] := by
  have hne : o ≠ 0 := by omega
  have hnn : ¬ o < (0 : Int) := by omega
  have hneeds : needsShiftPredicate (DefOp.shiftOp [o] pad) [a] = true := by
    simp [needsShiftPredicate, needsShiftPredicateAux, nspCond, hbc, hne]
  rw [getPredicate_run _ _ _ _ hneeds rfl, predLoop_single _ _ _ hbc htr]
  refine ⟨KBool.and
      (sgeExpr (if pad then saddExpr (KInt.var v) (KInt.const (-o))
        else KInt.var v) (saddExpr (a.halo.width 0) a.start))
      (sltExpr (KInt.var v) (saddExpr a.stop (a.halo.width 0))), ?_, ?_⟩
  · simp [shiftPredAxis, producerIndexFor, getShiftProducerIndexM, hne,
      hnn, ho, sandExpr]
  · simp [ltAtoms, ltAtoms_sgeExpr]

theorem gather_upper_atoms (v : Nat) (a : PredAxisInfo)
    (mt : MemoryType) (hbc : a.isBroadcast = false)
    (htr : a.isTrivialReduction = false) (w : KInt) (p : Int)
    (hw1 : w.isOneInt = false) :
    ∃ P, getPredicate (DefOp.gatherOp [w] [p] [0]) [a] [KInt.var v] false
        mt (KBool.const true) true = some P ∧
      ltAtoms P = [(KInt.var v, saddExpr a.stop (a.halo.width 0)),
        (KInt.sub (KInt.add (KInt.var v) (KInt.var v)) (KInt.const p),
          saddExpr a.stop (a.halo.width 0))] := by
  have hneeds : needsShiftPredicate (DefOp.gatherOp [w] [p] [0]) [a]
      = true := by
    simp [needsShiftPredicate, needsShiftPredicateAux, nspCond, hbc, hw1]
  have hnev : KInt.var v
      ≠ KInt.sub (KInt.add (KInt.var v) (KInt.var v)) (KInt.const p) := by
    intro h
    exact KInt.noConfusion h
  rw [getPredicate_run _ _ _ _ hneeds rfl, predLoop_single _ _ _ hbc htr]
  refine ⟨KBool.and
      (KBool.and
        (KBool.and
          (sgeExpr (KInt.var v) (saddExpr (a.halo.width 0) a.start))
          (sgeExpr
            (KInt.sub (KInt.add (KInt.var v) (KInt.var v)) (KInt.const p))
            (saddExpr (a.halo.width 0) a.start)))
        (sltExpr (KInt.var v) (saddExpr a.stop (a.halo.width 0))))
      (sltExpr
        (KInt.sub (KInt.add (KInt.var v) (KInt.var v)) (KInt.const p))
        (saddExpr a.stop (a.halo.width 0))), ?_, ?_⟩
  · simp [shiftPredAxis, producerIndexFor, getGatherProducerIndexM, hw1,
      hnev, sandExpr]
  · simp [ltAtoms, ltAtoms_sgeExpr]

theorem other_upper_atom (v : Nat) (a : PredAxisInfo) (mt : MemoryType)
    (hbc : a.isBroadcast = false) (htr : a.isTrivialReduction = false)
    (hhalo : a.halo.hasHalo = true) :
    ∃ P, getPredicate DefOp.otherOp [a] [KInt.var v] false mt
        (KBool.const true) true = some P ∧
      ltAtoms P = [(KInt.var v, saddExpr a.stop (a.halo.width 0))] := by
  have hneeds : needsShiftPredicate DefOp.otherOp [a] = true := by
    simp [needsShiftPredicate, needsShiftPredicateAux, nspCond, hhalo]
  rw [getPredicate_run _ _ _ _ hneeds rfl, predLoop_single _ _ _ hbc htr]
  by_cases hz : (saddExpr (a.halo.width 0) a.start).isZeroInt
  · refine ⟨sltExpr (KInt.var v) (saddExpr a.stop (a.halo.width 0)),
      ?_, ?_⟩
    · simp [shiftPredAxis, producerIndexFor, hz, sandExpr]
    · exact ltAtoms_sltExpr_nonconst _ _ rfl
  · refine ⟨KBool.and
        (sgeExpr (KInt.var v) (saddExpr (a.halo.width 0) a.start))
        (sltExpr (KInt.var v) (saddExpr a.stop (a.halo.width 0))),
      ?_, ?_⟩
    · simp [shiftPredAxis, producerIndexFor, hz, sandExpr]
    · simp [ltAtoms, ltAtoms_sgeExpr]

/-- C7 counterexample: for an elementwise consumer axis with low halo 0 and
high halo 2, stop 10, the upper-bound conjunct compares against
stop + low halo = 10, not stop + high halo = 12 as claimed (the source
builds right_limit from halo width(0)). -/
theorem shift_upper_bound_counterexample :
    getPredicate DefOp.otherOp
        [⟨false, false, false, ⟨KInt.const 0, KInt.const 2⟩, KInt.const 0,
          KInt.const 10, KInt.const 10⟩]
        [KInt.var 0] false MemoryType.Global (KBool.const true) true
      = some (KBool.lt (KInt.var 0) (KInt.const 10)) ∧
    KBool.lt (KInt.var 0) (KInt.const 10)
      ≠ KBool.lt (KInt.var 0)
          (saddExpr (KInt.const 10) (KInt.const 2)) := by
  decide

/-- C7 amended: every per-axis upper-bound conjunct of the shift predicate
compares the relevant index (producer index for a padded negative-offset
shift, else the consumer index, plus the producer index additionally for a
gather) strictly less than high limit = axis stop + the LOW-side halo
width of the axis. -/
theorem upper_bound_uses_low_halo (v : Nat) (a : PredAxisInfo)
    (mt : MemoryType) (hbc : a.isBroadcast = false)
    (htr : a.isTrivialReduction = false) :
    (∀ o : Int, ∀ pad : Bool, o < 0 →
      ∃ P, getPredicate (DefOp.shiftOp [o] pad) [a] [KInt.var v] false mt
          (KBool.const true) true = some P ∧
        ltAtoms P = [((if pad then saddExpr (KInt.var v) (KInt.const (-o))
            else KInt.var v), saddExpr a.stop (a.halo.width 0))]) ∧
    (∀ o : Int, ∀ pad : Bool, 0 < o →
      ∃ P, getPredicate (DefOp.shiftOp [o] pad) [a] [KInt.var v] false mt
          (KBool.const true) true = some P ∧
        ltAtoms P = [(KInt.var v, saddExpr a.stop (a.halo.width 0))]) ∧
    (∀ w : KInt, ∀ p : Int, w.isOneInt = false →
      ∃ P, getPredicate (DefOp.gatherOp [w] [p] [0]) [a] [KInt.var v]
          false mt (KBool.const true) true = some P ∧
        ltAtoms P = [(KInt.var v, saddExpr a.stop (a.halo.width 0)),
          (KInt.sub (KInt.add (KInt.var v) (KInt.var v)) (KInt.const p),
            saddExpr a.stop (a.halo.width 0))]) ∧
    (a.halo.hasHalo = true →
      ∃ P, getPredicate DefOp.otherOp [a] [KInt.var v] false mt
          (KBool.const true) true = some P ∧
        ltAtoms P = [(KInt.var v, saddExpr a.stop (a.halo.width 0))]) :=
  ⟨fun o pad ho => shift_neg_upper_atom v a mt hbc htr o pad ho,
   fun o pad ho => shift_pos_upper_atom v a mt hbc htr o pad ho,
   fun w p hw1 => gather_upper_atoms v a mt hbc htr w p hw1,
   fun hhalo => other_upper_atom v a mt hbc htr hhalo⟩

theorem upper_bound_uses_low_halo_witness :
    ∃ P, getPredicate (DefOp.shiftOp [-2] true)
        [⟨false, false, false, ⟨KInt.const 0, KInt.const 2⟩, KInt.const 0,
          KInt.const 10, KInt.const 10⟩]
        [KInt.var 0] false MemoryType.Global (KBool.const true) true
        = some P ∧
      ltAtoms P = [(saddExpr (KInt.var 0) (KInt.const 2),
        saddExpr (KInt.const 10) (KInt.const 0))] := by
  have h := (upper_bound_uses_low_halo 0
    ⟨false, false, false, ⟨KInt.const 0, KInt.const 2⟩, KInt.const 0,
      KInt.const 10, KInt.const 10⟩ MemoryType.Global rfl rfl).1
    (-2) true (by decide)
  obtain ⟨P, h1, h2⟩ := h
  refine ⟨P, h1, ?_⟩
  rw [h2]
  norm_num [AxisHaloInfo.width]
